import Mathlib

/-!
Shallow embedding of `transcript_update_bot.py`.

The script is a three-stage batch job: Transcript Sync (fetch transcripts,
archive each as a document, append tracking rows), Cross-Sheet Propagation
(copy archive links into the master/audit sheets via a batch accumulator),
and Analysis (structured-output model call written back into column blocks).
Stateful spreadsheet/document interaction is modelled as explicit action
lists emitted by pure functions over an environment record that fixes the
outcome of every external read and write.
-/

namespace TranscriptBot

/-! ## Spreadsheet column addressing -/

-- Fuel-based helper so that the kernel can evaluate the encoding.
def colLettersAux : Nat → Nat → String
  | 0, _ => ""
  | fuel+1, n =>
    if n = 0 then ""
    else colLettersAux fuel ((n - 1) / 26) ++ String.singleton (Char.ofNat (65 + (n - 1) % 26))

/-- Modelled from the spec: `column_index` comes from the module `data_config`,
which the script imports but which is absent from the sources.  Per the spec it
maps a 1-based column index to spreadsheet column letters in the base-26
no-zero-digit encoding (1 → A, 26 → Z, 27 → AA). -/
def column_index (n : Nat) : String := colLettersAux n n

/-- Numeric column of a letter-coded column reference (inverse direction of
`column_index`), used to state how many columns an `A1:B9`-style range spans. -/
def colNumber (s : String) : Nat :=
  s.data.foldl (fun acc c => acc * 26 + (c.toNat - 64)) 0

/-- Number of columns covered by a range running from column `a` to column `b`. -/
def colWidth (a b : String) : Nat := colNumber b + 1 - colNumber a

/-! ## Transcript data model (`fetch_all_transcripts` payload) -/

structure Sentence where
  speaker_name : String
  text : String
  start_time : ℚ
  end_time : ℚ
deriving DecidableEq

/-- One record of the Fireflies `transcripts` query; `sentences` is `none` when
the API returns `null` (transcription still in progress). -/
structure Transcript where
  id : String
  calendar_id : String
  title : String
  sentences : Option (List Sentence)
deriving DecidableEq

-- Body text for one sentence; numeric rendering of the timestamps differs
-- from Python float formatting, but only the total text length reaches the
-- classification below.
def sentenceLine (s : Sentence) : String :=
  "Time (in seconds): " ++ toString s.start_time ++ " to " ++ toString s.end_time ++ "\n"
    ++ s.speaker_name ++ ": " ++ s.text ++ "\n\n"

/-- `complete_transcript`: concatenates every sentence with its timestamp
header (empty string for an empty/absent sentence list). -/
def complete_transcript (sentences : List Sentence) : String :=
  sentences.foldl (fun acc s => acc ++ sentenceLine s) ""

/-- `meeting_duration`: `(t_sentences[-1]["end_time"] - t_sentences[0]["start_time"]) / 60`,
computed in `main` only for a non-empty sentence list. -/
def meeting_duration : List Sentence → ℚ
  | [] => 0
  | s :: rest => ((rest.getLastD s).end_time - s.start_time) / 60

/-- The `meeting_conducted` classification from `main`: initialised to
`"Not Conducted"` and upgraded exactly when
`meeting_duration > 10.0 and len(t_complete_text) > 10`. -/
def meeting_conducted (sentences : List Sentence) : String :=
  if 10 < meeting_duration sentences ∧ 10 < (complete_transcript sentences).length then
    "Conducted"
  else
    "Not Conducted"

-- Floor of a rational as an integer, written out so the kernel can evaluate it.
def ratFloor (q : ℚ) : Int := q.num / (q.den : Int)

-- Two-decimal fixed rendering of the duration (`f"{meeting_duration:.2f}"`);
-- rounding-mode differences with Python float formatting are immaterial to
-- every claim below.
def format2f (q : ℚ) : String :=
  let c : Int := ratFloor (q * 100 + 1 / 2)
  let sign := if c < 0 then "-" else ""
  let n := c.natAbs
  sign ++ toString (n / 100) ++ "." ++ (if n % 100 < 10 then "0" else "") ++ toString (n % 100)

/-! ## Transcript Sync stage -/

def ffUrl (t_id : String) : String := "https://app.fireflies.ai/view/" ++ t_id

def docUrlOfId (doc_id : String) : String := "https://docs.google.com/document/d/" ++ doc_id

/-- External state read at stage entry: the tracking sheet's `Sheet1!C2:C`
rows, the tag-based document lookup (`get_doc_with_t_id`, returning a doc
link), and the outcome of `create_google_doc_in_folder` (`none` on failure). -/
structure SyncEnv where
  tracking_ids : List (List String)
  docLookup : String → Option String
  createDoc : String → Option String

/-- Writes performed by the sync loop: one Drive/Docs document creation, or
one `values().append` call whose payload is the `data_ts_sheet` value. -/
inductive SyncAction where
  | createDocCall (doc_name : String) (text : String) (t_id : String)
  | appendRow (values : List (List String))
deriving DecidableEq

/-- Loop body of the first stage of `main` for a single fetched transcript:
skip when sentences are `None`/empty, compute duration/classification, skip
when the id is already in the tracking sheet, then reuse or create the archive
doc and append one tracking row. -/
def syncRecord (env : SyncEnv) (t : Transcript) : List SyncAction :=
  match t.sentences with
  | none => []
  | some ss =>
    if ss.isEmpty then []
    else
      let durStr := format2f (meeting_duration ss)
      let conducted := meeting_conducted ss
      if [t.id] ∈ env.tracking_ids then []
      else
        match env.docLookup t.id with
        | some doc_url =>
          [.appendRow [[t.calendar_id, t.title, t.id, doc_url, ffUrl t.id, durStr, conducted]]]
        | none =>
          .createDocCall t.title (complete_transcript ss) t.id ::
            match env.createDoc t.id with
            | none => []
            | some doc_id =>
              [.appendRow
                [[t.calendar_id, t.title, t.id, docUrlOfId doc_id, ffUrl t.id, durStr, conducted]]]

/-- The whole Transcript Sync stage over the fetched list. -/
def syncStage (env : SyncEnv) (ts : List Transcript) : List SyncAction :=
  (ts.map (syncRecord env)).flatten

/-- The payloads of the `values().append` calls issued by a run, one list
entry per API call. -/
def appendCalls (acts : List SyncAction) : List (List (List String)) :=
  acts.filterMap fun a =>
    match a with
    | .appendRow vs => some vs
    | _ => none

/-- All tracking rows appended by a run (the concatenation of the payloads). -/
def appendedRows (acts : List SyncAction) : List (List String) :=
  (appendCalls acts).flatten

/-! ## Retrying writer (`write_with_retry`) -/

/-- Outcome of one `values().update` call: success, an HTTP 429 throttling
`HttpError`, or any other `HttpError`. -/
inductive CallResult where
  | success
  | throttled
  | otherError
deriving DecidableEq

structure RetryOutcome where
  ok : Bool
  calls : Nat
  sleeps : List Nat
deriving DecidableEq

-- `for attempt in range(max_retries)` with `responses attempt` the outcome of
-- the call made on that attempt; records the `time.sleep(2 ** attempt + 1)`
-- delays taken on throttled attempts.
def retryGo (responses : Nat → CallResult) : Nat → Nat → RetryOutcome
  | _, 0 => ⟨false, 0, []⟩
  | attempt, fuel+1 =>
    match responses attempt with
    | .success => ⟨true, 1, []⟩
    | .otherError => ⟨false, 1, []⟩
    | .throttled =>
      ⟨(retryGo responses (attempt + 1) fuel).ok,
       (retryGo responses (attempt + 1) fuel).calls + 1,
       (2 ^ attempt + 1) :: (retryGo responses (attempt + 1) fuel).sleeps⟩

/-- `write_with_retry(..., max_retries=5)`: returns `True` on a successful
call, `False` immediately on a non-throttling error, and `False` after the
loop exhausts `max_retries` throttled attempts. -/
def write_with_retry (responses : Nat → CallResult) (max_retries : Nat := 5) : RetryOutcome :=
  retryGo responses 0 max_retries

/-! ## Cross-Sheet Propagation stage -/

/-- One record parsed out of the tracking sheet (`ts_dict` entries built from
`Sheet1!A2:G`; a short row yields empty-string duration/conducted fields). -/
structure TrackRow where
  calendar_id : String
  event_name : String
  transcript_id : String
  transcript_url : String
  firefly_url : String
  meeting_duration : String
  meeting_conducted : String
deriving DecidableEq

/-- One entry of a `batchUpdate` payload, kept structured so that the target
sheet and row are inspectable; `rangeStr` renders the A1 reference the script
builds by string formatting. -/
structure Update where
  sheet : String
  startCol : String
  startRow : Nat
  endCol : Option String
  endRow : Option Nat
  values : List (List String)
deriving DecidableEq

def Update.rangeStr (u : Update) : String :=
  u.sheet ++ "!" ++ u.startCol ++ toString u.startRow ++
    (match u.endCol, u.endRow with
     | some c, some r => ":" ++ c ++ toString r
     | _, _ => "")

/-- Column letters resolved once per run from the two header rows
(`master_sheet_column_headers` and `audit_sheet_column_headers`). -/
structure PropConfig where
  headers : List String
  audit_headers : List String
deriving DecidableEq

def owner_update_column_master_letter (cfg : PropConfig) : String :=
  column_index (cfg.headers.indexOf "Owner sheet to be updated" + 1)

def owner_update_column_audit_letter (cfg : PropConfig) : String :=
  column_index (cfg.audit_headers.indexOf "Owner sheet to be updated" + 1)

def conducted_status_flag_column (cfg : PropConfig) : String :=
  column_index (cfg.headers.indexOf "Meeting Done" + 1)

/-- The 4 updates queued for a matched tracking row at master row `index`,
plus a 5th (`Meeting Done`) when `meeting_conducted` is truthy. -/
def rowUpdates (cfg : PropConfig) (t : TrackRow) (index : Nat) : List Update :=
  [⟨"Meeting_data", "I", index, some "J", some index,
      [[t.transcript_url, t.meeting_duration]]⟩,
   ⟨"Audit_and_Training", "I", index, some "J", some index,
      [[t.transcript_url, t.meeting_duration]]⟩,
   ⟨"Meeting_data", owner_update_column_master_letter cfg, index, none, none, [["TRUE"]]⟩,
   ⟨"Audit_and_Training", owner_update_column_audit_letter cfg, index, none, none, [["TRUE"]]⟩]
  ++ (if t.meeting_conducted ≠ "" then
        [⟨"Meeting_data", conducted_status_flag_column cfg, index, none, none,
            [[t.meeting_conducted]]⟩]
      else [])

/-- Master-sheet state read at stage entry: `Meeting_data!I2:I` (archive urls)
and `Meeting_data!A2:A` (calendar ids), as raw row lists. -/
structure PropEnv where
  cfg : PropConfig
  master_urls : List (List String)
  master_cals : List (List String)
deriving DecidableEq

/-- Loop body for one tracking row: skip when the url is already anywhere in
the master archive-url column; otherwise, on the first calendar-id match
(`.index` + 2), extend the accumulator with the row's updates and flush it
(one `batch_write_multiple_ranges` call) once it holds at least 40 updates. -/
def propStep (env : PropEnv) (t : TrackRow) (acc : List Update) :
    List Update × Option (List Update) :=
  if [t.transcript_url] ∈ env.master_urls then (acc, none)
  else if [t.calendar_id] ∈ env.master_cals then
    let index := env.master_cals.indexOf [t.calendar_id] + 2
    let acc' := acc ++ rowUpdates env.cfg t index
    if 40 ≤ acc'.length then ([], some acc') else (acc', none)
  else (acc, none)

/-- The propagation loop: final accumulator plus the list of mid-loop bulk
write calls, each call being the update list it carried. -/
def propLoop (env : PropEnv) : List TrackRow → List Update → List Update × List (List Update)
  | [], acc => (acc, [])
  | t :: ts, acc =>
    let step := propStep env t acc
    let rest := propLoop env ts step.1
    (rest.1, step.2.toList ++ rest.2)

/-- Mid-loop bulk write calls of a full stage run started with an empty
accumulator. -/
def midFlushes (env : PropEnv) (rows : List TrackRow) : List (List Update) :=
  (propLoop env rows []).2

/-- All bulk write calls of the stage: mid-loop flushes followed by the final
`if all_updates:` flush of whatever remains. -/
def propagation (env : PropEnv) (rows : List TrackRow) : List (List Update) :=
  let fin := propLoop env rows []
  fin.2 ++ (if fin.1.isEmpty then [] else [fin.1])

/-- The updates the stage queues for one tracking row (independent of
batching). -/
def queuedFor (env : PropEnv) (t : TrackRow) : List Update :=
  if [t.transcript_url] ∈ env.master_urls then []
  else if [t.calendar_id] ∈ env.master_cals then
    rowUpdates env.cfg t (env.master_cals.indexOf [t.calendar_id] + 2)
  else []

def queuedUpdates (env : PropEnv) (rows : List TrackRow) : List Update :=
  (rows.map (queuedFor env)).flatten

/-! ## Analysis stage: structured result and column split -/

/-- Values of the dumped Pydantic `Analysis` model: with
`use_enum_values = True` enum fields dump as plain strings, so a value is a
string, an integer, a list of strings, or a list of flat objects
(`Action_Items`, `Specific_Competitor_Insights`). -/
inductive PyValue where
  | vStr (s : String)
  | vInt (n : Int)
  | vList (l : List String)
  | vObjList (l : List (List (String × String)))
deriving DecidableEq

def quoteChar : String := String.singleton (Char.ofNat 39)

def pyQuoted (s : String) : String := quoteChar ++ s ++ quoteChar

def pyDictRepr (d : List (String × String)) : String :=
  "\x7b" ++ String.intercalate ", " (d.map fun kv => pyQuoted kv.1 ++ ": " ++ pyQuoted kv.2)
    ++ "\x7d"

/-- `formatted_val = f"{value}" if not isinstance(value, str) else value`:
strings pass through, other values render as Python would print them. -/
def pyStr : PyValue → String
  | .vStr s => s
  | .vInt n => toString n
  | .vList l => "[" ++ String.intercalate ", " (l.map pyQuoted) ++ "]"
  | .vObjList l => "[" ++ String.intercalate ", " (l.map pyDictRepr) ++ "]"

/-- The field names of the `Analysis` Pydantic model, in declaration order
(the iteration order of `analysis.items()` after `model_dump()`). -/
def analysisKeys : List String :=
  ["Brand_Size", "Meeting_Type", "Meeting_Agenda", "Key_Discussion_Points", "Key_Questions",
   "Marketing_Assets", "Competition_Discussion", "Action_Items", "Rebuttal_Handling",
   "Rapport_Building", "Improvement_Areas", "Other_Sales_Parameters", "Budget_or_Scope",
   "Lead_Category", "Positive_Factors", "Negative_Factors", "Closure_Score", "Brand_Traits",
   "Tone_of_Voice", "Values_and_Mission", "Customer_Needs", "Need_Identification",
   "Sales_Pitch_Rating", "Client_Pain_Points", "Value_Proposition_Articulation",
   "Product_Knowledge_Displayed", "Call_Effectiveness_and_Control",
   "Next_Steps_Clarity_and_Commitment", "Overall_Client_Sentiment",
   "Specific_Competitor_Insights", "Key_Managerial_Summary",
   "Identified_Missed_Opportunities", "Pitched_Asset_Relevance_to_Needs",
   "Pre_vs_Post_Meeting_Score", "Pitch_Direction", "Was_Digital_Inventory_Pitched",
   "Was_Island_Banner_or_Video_Pitched", "Was_Physical_Inventory_Pitched",
   "Offline_Assets_Proposed", "Was_Lift_Branding_Pitched", "Were_Success_Stories_Cited",
   "Which_Brand_Stories_Cited", "Were_ROI_Metrics_Promised", "Details_of_Promised_Metrics",
   "Was_Pilot_Offered", "Objection_Handling_MyGate",
   "Client_vs_NBH_Participant_Speaking_Ratio", "Were_Clear_Next_Steps_Established",
   "Immediate_Next_Action", "Confidence_Score", "Communication_Clarity_Score",
   "Energy_Engagement_Score", "Rapport_Building_Capability"]

def audit_params : List String :=
  ["Brand_Size", "Meeting_Type", "Rebuttal_Handling", "Rapport_Building", "Improvement_Areas",
   "Other_Sales_Parameters", "Need_Identification", "Value_Proposition_Articulation",
   "Product_Knowledge_Displayed", "Call_Effectiveness_and_Control",
   "Next_Steps_Clarity_and_Commitment", "Identified_Missed_Opportunities",
   "Pitched_Asset_Relevance_to_Needs", "Pre_vs_Post_Meeting_Score"]

def business_params : List String :=
  ["Brand_Size", "Meeting_Type", "Meeting_Agenda", "Key_Discussion_Points", "Key_Questions",
   "Marketing_Assets", "Competition_Discussion", "Action_Items", "Budget_or_Scope",
   "Lead_Category", "Positive_Factors", "Negative_Factors", "Closure_Score", "Brand_Traits",
   "Tone_of_Voice", "Values_and_Mission", "Customer_Needs", "Sales_Pitch_Rating",
   "Client_Pain_Points", "Overall_Client_Sentiment", "Specific_Competitor_Insights",
   "Key_Managerial_Summary"]

/-- `new_column_keys` as the Python source spells it: the 15th element is the
implicit concatenation of the two adjacent string literals
`"Immediate_Next_Action"` and `"Confidence_Score"` (the comma between them is
missing in the source), so the list has 18 entries, not 19. -/
def new_column_keys : List String :=
  ["Pitch_Direction", "Was_Digital_Inventory_Pitched", "Was_Island_Banner_or_Video_Pitched",
   "Was_Physical_Inventory_Pitched", "Offline_Assets_Proposed", "Was_Lift_Branding_Pitched",
   "Were_Success_Stories_Cited", "Which_Brand_Stories_Cited", "Were_ROI_Metrics_Promised",
   "Details_of_Promised_Metrics", "Was_Pilot_Offered", "Objection_Handling_MyGate",
   "Client_vs_NBH_Participant_Speaking_Ratio", "Were_Clear_Next_Steps_Established",
   "Immediate_Next_ActionConfidence_Score",
   "Communication_Clarity_Score", "Energy_Engagement_Score", "Rapport_Building_Capability"]

/-- One iteration of the loop over `analysis.items()`: a key in
`new_column_keys` is skipped (`continue`), and every other key appends its
formatted value to the audit bucket (`audit_data`) and/or the business bucket
(`data`) it belongs to. -/
def bucketStep (acc : List String × List String) (kv : String × PyValue) :
    List String × List String :=
  if kv.1 ∈ new_column_keys then acc
  else
    ((if kv.1 ∈ audit_params then acc.1 ++ [pyStr kv.2] else acc.1),
     (if kv.1 ∈ business_params then acc.2 ++ [pyStr kv.2] else acc.2))

/-- The full loop over `analysis.items()`, producing `(audit_data, data)`. -/
def splitBuckets (a : List (String × PyValue)) : List String × List String :=
  a.foldl bucketStep ([], [])

/-- The new-column loop body: `", ".join` for a string list, otherwise
`str(val)` (the `hasattr(val, 'value')` enum branch is inert because
`use_enum_values` already dumped enums as strings; a list of objects here
would raise in Python, and no new-column key holds one). -/
def newColFormat : PyValue → String
  | .vList l => String.intercalate ", " l
  | .vStr s => s
  | .vInt n => toString n
  | .vObjList l => pyStr (.vObjList l)

/-- `new_col_data`: one formatted value per `new_column_keys` entry, taken
from `analysis.get(key, "")`. -/
def new_col_data (a : List (String × PyValue)) : List String :=
  new_column_keys.map fun k => newColFormat ((a.lookup k).getD (.vStr ""))

/-- The three ranges of the per-record analysis `batchUpdate`. -/
def analysisUpdates (a : List (String × PyValue)) (sheet_index : Nat) : List Update :=
  [⟨"Meeting_data", "K", sheet_index, some "AF", some sheet_index, [(splitBuckets a).2]⟩,
   ⟨"Audit_and_Training", "K", sheet_index, some "X", some sheet_index, [(splitBuckets a).1]⟩,
   ⟨"Meeting_data", "AN", sheet_index, some "BF", some sheet_index, [new_col_data a]⟩]

/-! ## Analysis stage: candidate selection and per-record control flow -/

/-- Python truthiness of the `sheet_index` variable (`None` or an `int`). -/
def pyTruthyIdx : Option Nat → Bool
  | none => false
  | some n => n ≠ 0

/-- `t[0].split('/')[5]` for a well-formed document url; the script would
raise `IndexError` on a url with fewer than six `/`-separated parts. -/
def docIdFromUrl (url : String) : String := ((url.splitOn "/").drop 5).headD ""

/-- Candidate construction for one `Sheet1!D2:D` row `t`: skipped when empty
or `'Transcript not uploaded'`; `sheet_index` is the first index of `t` in the
master url column or `None`, and the candidate is kept only when
`if sheet_index:` is truthy — which also drops a genuine match at index 0. -/
def candidateOf (master_urls : List (List String)) (t : List String) :
    Option (String × Nat) :=
  if t.length = 0 then none
  else if t.getD 0 "" = "Transcript not uploaded" then none
  else
    let sheet_index : Option Nat :=
      if t ∈ master_urls then some (master_urls.indexOf t) else none
    if pyTruthyIdx sheet_index then
      some (docIdFromUrl (t.getD 0 ""), sheet_index.getD 0 + 2)
    else none

def selectCandidates (master_urls : List (List String)) (ts_urls : List (List String)) :
    List (String × Nat) :=
  ts_urls.filterMap (candidateOf master_urls)

/-- `t_ids[-1000:]`: only the last 1000 candidates are analyzed. -/
def analysisWindow (cands : List (String × Nat)) : List (String × Nat) :=
  cands.drop (cands.length - 1000)

/-- Python truthiness of the `processed` app property (`None` or a string). -/
def pyTruthyStr : Option String → Bool
  | none => false
  | some s => s ≠ ""

/-- Externally determined facts for one analysis candidate: its current
`processed` app property, the extracted document texts, the structured-output
result (`none` on a validation or transport failure), and whether the bulk
analysis write reports success. -/
structure AnalysisEnv where
  processed : Option String
  transcript_text : String
  pm_brief_text : String
  analysis : Option (List (String × PyValue))
  writeSuccess : Bool

/-- Writes performed for one analysis candidate. -/
inductive AnalysisAction where
  | batchWrite (updates : List Update)
  | setProcessedTag (doc_id : String)
  | ownerFlagWrite (master_range : String) (audit_range : String)
deriving DecidableEq

/-- Loop body of the analysis stage for one candidate `(doc_id, sheet_index)`:
nothing happens when the doc is already tagged processed, the text is empty,
or the model call fails; otherwise the three-range batch write is issued and,
only if it succeeds, the `processed` tag is set and the owner-sync flags are
rewritten. -/
def analysisRecordStep (cfg : PropConfig) (env : AnalysisEnv) (doc_id : String)
    (sheet_index : Nat) : List AnalysisAction :=
  if pyTruthyStr env.processed then []
  else if env.transcript_text = "" then []
  else
    match env.analysis with
    | none => []
    | some a =>
      .batchWrite (analysisUpdates a sheet_index) ::
        (if env.writeSuccess then
          [.setProcessedTag doc_id,
           .ownerFlagWrite
             ("Meeting_data!" ++ owner_update_column_master_letter cfg
               ++ toString sheet_index ++ ":" ++ owner_update_column_master_letter cfg
               ++ toString sheet_index)
             ("Audit_and_Training!" ++ owner_update_column_audit_letter cfg
               ++ toString sheet_index ++ ":" ++ owner_update_column_audit_letter cfg
               ++ toString sheet_index)]
        else [])

/-! ## Helper lemmas -/

lemma retryGo_calls_le (r : Nat → CallResult) : ∀ (f a : Nat), (retryGo r a f).calls ≤ f := by
  intro f
  induction f with
  | zero => intro a; simp [retryGo]
  | succ f ih =>
    intro a
    cases h : r a <;> simp [retryGo, h]
    exact ih (a + 1)

lemma range_pow_cons (a k : Nat) :
    ((List.range (k + 1)).map fun i => 2 ^ (a + i) + 1) =
      (2 ^ a + 1) :: ((List.range k).map fun i => 2 ^ (a + 1 + i) + 1) := by
  rw [List.range_succ_eq_map]
  simp only [List.map_cons, List.map_map, Nat.add_zero]
  refine congrArg _ (List.map_congr_left fun i _ => ?_)
  simp only [Function.comp]
  rw [show a + (i + 1) = a + 1 + i by omega]

lemma retryGo_throttle_prefix (r : Nat → CallResult) :
    ∀ (k f a : Nat), k ≤ f → (∀ i, i < k → r (a + i) = .throttled) →
      retryGo r a f =
        ⟨(retryGo r (a + k) (f - k)).ok,
         (retryGo r (a + k) (f - k)).calls + k,
         ((List.range k).map fun i => 2 ^ (a + i) + 1) ++ (retryGo r (a + k) (f - k)).sleeps⟩ := by
  intro k
  induction k with
  | zero => intro f a _ _; simp
  | succ k ih =>
    intro f a hkf hthr
    obtain ⟨f, rfl⟩ : ∃ g, f = g + 1 := ⟨f - 1, by omega⟩
    have h0 : r a = .throttled := by simpa using hthr 0 (Nat.succ_pos k)
    have hshift : ∀ i, i < k → r (a + 1 + i) = .throttled := by
      intro i hi
      have h := hthr (i + 1) (by omega)
      rwa [show a + (i + 1) = a + 1 + i by omega] at h
    have hrec := ih f (a + 1) (by omega) hshift
    have e1 : a + 1 + k = a + (k + 1) := by omega
    have e2 : f - k = f + 1 - (k + 1) := by omega
    rw [e1, e2] at hrec
    simp only [retryGo, h0, hrec, range_pow_cons]
    refine congrArg₂ _ rfl ?_
    simp [Nat.add_assoc]

/-! ## Claim theorems -/

/-- C4: the retrying writer retries a throttled (HTTP 429) call after sleeping
`2 ^ attempt + 1` seconds, makes at most 5 attempts in total and reports
failure after the 5th throttled attempt; a non-throttling error at any attempt
makes it report failure at once, and a successful call makes it report
success. -/
theorem claim_C4 (r : Nat → CallResult) :
    ((∀ n, r n = .throttled) →
      write_with_retry r = ⟨false, 5, [2, 3, 5, 9, 17]⟩) ∧
    (∀ k, k < 5 → (∀ i, i < k → r i = .throttled) → r k = .otherError →
      (write_with_retry r).ok = false ∧ (write_with_retry r).calls = k + 1) ∧
    (∀ k, k < 5 → (∀ i, i < k → r i = .throttled) → r k = .success →
      (write_with_retry r).ok = true ∧ (write_with_retry r).calls = k + 1) ∧
    (write_with_retry r).calls ≤ 5 := by
  refine ⟨?_, ?_, ?_, retryGo_calls_le r 5 0⟩
  · intro h
    have h1 := retryGo_throttle_prefix r 5 5 0 le_rfl (fun i _ => h (0 + i))
    have h0 : retryGo r (0 + 5) (5 - 5) = ⟨false, 0, []⟩ := rfl
    rw [h0] at h1
    show retryGo r 0 5 = _
    rw [h1]
    decide
  · intro k hk hthr herr
    have h1 := retryGo_throttle_prefix r k 5 0 (by omega) (fun i hi => by
      simpa using hthr i hi)
    have e : 5 - k = (4 - k) + 1 := by omega
    rw [e] at h1
    have h2 : retryGo r (0 + k) ((4 - k) + 1) = ⟨false, 1, []⟩ := by
      have hk' : r (0 + k) = .otherError := by simpa using herr
      simp [retryGo, herr, hk']
    rw [h2] at h1
    constructor
    · show (retryGo r 0 5).ok = false
      rw [h1]
    · show (retryGo r 0 5).calls = k + 1
      rw [h1]
      simp [Nat.add_comm]
  · intro k hk hthr hsuc
    have h1 := retryGo_throttle_prefix r k 5 0 (by omega) (fun i hi => by
      simpa using hthr i hi)
    have e : 5 - k = (4 - k) + 1 := by omega
    rw [e] at h1
    have h2 : retryGo r (0 + k) ((4 - k) + 1) = ⟨true, 1, []⟩ := by
      have hk' : r (0 + k) = .success := by simpa using hsuc
      simp [retryGo, hsuc, hk']
    rw [h2] at h1
    constructor
    · show (retryGo r 0 5).ok = true
      rw [h1]
    · show (retryGo r 0 5).calls = k + 1
      rw [h1]
      simp [Nat.add_comm]

theorem claim_C4_witness :
    write_with_retry (fun _ => CallResult.throttled) = ⟨false, 5, [2, 3, 5, 9, 17]⟩ ∧
    (write_with_retry (fun _ => CallResult.otherError)).ok = false ∧
    (write_with_retry (fun _ => CallResult.otherError)).calls = 0 + 1 := by
  refine ⟨(claim_C4 _).1 (fun n => rfl), ?_, ?_⟩
  · exact ((claim_C4 _).2.1 0 (by omega) (fun i hi => absurd hi (Nat.not_lt_zero i)) rfl).1
  · exact ((claim_C4 _).2.1 0 (by omega) (fun i hi => absurd hi (Nat.not_lt_zero i)) rfl).2

/-- C5: for a non-empty sentence list, the duration is
`(last end_time − first start_time) / 60`, the record is classified
`Conducted` exactly when the duration strictly exceeds 10 minutes and the
concatenated transcript text is strictly longer than 10 characters, and in
particular a duration of exactly 10 minutes (whatever the text, including an
11-character one) yields `Not Conducted`. -/
theorem claim_C5 (s : Sentence) (rest : List Sentence) :
    meeting_duration (s :: rest) = ((rest.getLastD s).end_time - s.start_time) / 60 ∧
    (meeting_conducted (s :: rest) = "Conducted" ↔
      10 < meeting_duration (s :: rest) ∧ 10 < (complete_transcript (s :: rest)).length) ∧
    (meeting_duration (s :: rest) = 10 → meeting_conducted (s :: rest) = "Not Conducted") := by
  refine ⟨rfl, ?_, ?_⟩
  · unfold meeting_conducted
    split
    · exact iff_of_true rfl (by assumption)
    · exact iff_of_false (by decide) (by assumption)
  · intro hdur
    unfold meeting_conducted
    rw [hdur]
    simp

theorem claim_C5_witness :
    meeting_duration [(⟨"A", "hi", 0, 600⟩ : Sentence)] = 10 ∧
    meeting_conducted [(⟨"A", "hi", 0, 600⟩ : Sentence)] = "Not Conducted" := by
  have h : meeting_duration [(⟨"A", "hi", 0, 600⟩ : Sentence)] = 10 := by
    norm_num [meeting_duration]
  exact ⟨h, (claim_C5 _ []).2.2 h⟩

/-- C8: a fetched transcript whose utterance sequence is absent (`None`) or
empty is skipped entirely by the sync loop: no document creation, no tracking
row append, no write of any kind. -/
theorem claim_C8 (env : SyncEnv) (t : Transcript)
    (h : t.sentences = none ∨ t.sentences = some []) :
    syncRecord env t = [] := by
  rcases h with h | h <;> simp [syncRecord, h]

theorem claim_C8_witness :
    syncRecord ⟨[], fun _ => none, fun _ => none⟩ ⟨"t1", "c1", "T", none⟩ = [] :=
  claim_C8 _ _ (Or.inl rfl)

/-- C9: a tracking-sheet transcript URL whose first match in the master
archive-url column sits at list index 0 (master data row 2) is rejected as an
analysis candidate in exactly the same way as a URL that does not appear at
all, because `if sheet_index:` treats the index 0 like `None`; consequently no
selected candidate ever targets master row 2. -/
theorem claim_C9 (master ts_urls : List (List String)) (t : List String) :
    (t ∈ master → master.indexOf t = 0 → candidateOf master t = none) ∧
    (t ∉ master → candidateOf master t = none) ∧
    (∀ c ∈ selectCandidates master ts_urls, c.2 ≠ 2) := by
  refine ⟨?_, ?_, ?_⟩
  · intro hm h0
    by_cases h1 : t.length = 0
    · simp [candidateOf, h1]
    · by_cases h2 : t.getD 0 "" = "Transcript not uploaded"
      · simp [candidateOf, List.getD, h1, h2]
        intro h
        exact absurd h2 (by simpa [List.getD] using h)
      · simp [candidateOf, List.getD, h1, hm, h0, pyTruthyIdx]
  · intro hm
    by_cases h1 : t.length = 0
    · simp [candidateOf, h1]
    · by_cases h2 : t.getD 0 "" = "Transcript not uploaded"
      · simp [candidateOf, List.getD, h1, h2]
        intro h
        exact absurd h2 (by simpa [List.getD] using h)
      · simp [candidateOf, List.getD, h1, hm, pyTruthyIdx]
  · intro c hc
    simp only [selectCandidates, List.mem_filterMap] at hc
    obtain ⟨t', _, hc'⟩ := hc
    unfold candidateOf at hc'
    split at hc'
    · exact absurd hc' (by simp)
    · split at hc'
      · exact absurd hc' (by simp)
      · by_cases hm : t' ∈ master
        · by_cases hidx : master.indexOf t' = 0
          · simp [hm, hidx, pyTruthyIdx] at hc'
          · simp [hm, hidx, pyTruthyIdx] at hc'
            rw [← hc']
            simp
            omega
        · simp [hm, pyTruthyIdx] at hc'

theorem claim_C9_witness :
    candidateOf [["u0"], ["u1"]] ["u0"] = none ∧
    candidateOf [["u0"], ["u1"]] ["zz"] = none :=
  ⟨(claim_C9 [["u0"], ["u1"]] [] ["u0"]).1 (by decide) (by decide),
   (claim_C9 [["u0"], ["u1"]] [] ["zz"]).2.1 (by decide)⟩

lemma indexOf_first {α : Type} [BEq α] [LawfulBEq α] (a : α) :
    ∀ l : List α, a ∈ l →
      l[l.indexOf a]? = some a ∧ ∀ j, j < l.indexOf a → l[j]? ≠ some a := by
  intro l
  induction l with
  | nil => intro h; cases h
  | cons b l ih =>
    intro h
    by_cases hb : b = a
    · subst hb
      have h0 : (b :: l).indexOf b = 0 := by
        simp [List.indexOf, List.findIdx_cons]
      rw [h0]
      exact ⟨by simp, fun j hj => absurd hj (by omega)⟩
    · have hbeq : (b == a) = false := by simpa using hb
      have hidx : (b :: l).indexOf a = l.indexOf a + 1 := by
        simp [List.indexOf, List.findIdx_cons, hbeq]
      have hmem : a ∈ l := by
        rcases List.mem_cons.mp h with h1 | h1
        · exact absurd h1.symm hb
        · exact h1
      obtain ⟨ih1, ih2⟩ := ih hmem
      rw [hidx]
      constructor
      · simpa using ih1
      · intro j hj
        cases j with
        | zero => simp [hb]
        | succ j =>
          have hj' := ih2 j (by omega)
          simpa using hj'

lemma rowUpdates_len_ge (cfg : PropConfig) (t : TrackRow) (i : Nat) :
    4 ≤ (rowUpdates cfg t i).length := by
  unfold rowUpdates
  split <;> simp

lemma rowUpdates_len_le (cfg : PropConfig) (t : TrackRow) (i : Nat) :
    (rowUpdates cfg t i).length ≤ 5 := by
  unfold rowUpdates
  split <;> simp

lemma rowUpdates_target_row (cfg : PropConfig) (t : TrackRow) (i : Nat) :
    ∀ u ∈ rowUpdates cfg t i,
      u.startRow = i ∧ (u.endRow = none ∨ u.endRow = some i) := by
  intro u hu
  unfold rowUpdates at hu
  by_cases hc : t.meeting_conducted ≠ ""
  · simp [hc] at hu
    rcases hu with rfl | rfl | rfl | rfl | rfl <;> simp
  · simp [hc] at hu
    rcases hu with rfl | rfl | rfl | rfl <;> simp

lemma queuedUpdates_cons (env : PropEnv) (t : TrackRow) (ts : List TrackRow) :
    queuedUpdates env (t :: ts) = queuedFor env t ++ queuedUpdates env ts := by
  simp [queuedUpdates]

lemma propLoop_spec (env : PropEnv) :
    ∀ (rows : List TrackRow) (acc : List Update), acc.length ≤ 39 →
      (∀ f ∈ (propLoop env rows acc).2, 40 ≤ f.length ∧ f.length ≤ 44) ∧
      (propLoop env rows acc).1.length ≤ 39 ∧
      (propLoop env rows acc).2.flatten ++ (propLoop env rows acc).1 =
        acc ++ queuedUpdates env rows := by
  intro rows
  induction rows with
  | nil =>
    intro acc hacc
    refine ⟨by simp [propLoop], by simpa [propLoop] using hacc, ?_⟩
    simp [propLoop, queuedUpdates]
  | cons t ts ih =>
    intro acc hacc
    by_cases hurl : [t.transcript_url] ∈ env.master_urls
    · have hstep : propStep env t acc = (acc, none) := by simp [propStep, hurl]
      have hq : queuedFor env t = [] := by simp [queuedFor, hurl]
      obtain ⟨ih1, ih2, ih3⟩ := ih acc hacc
      refine ⟨?_, ?_, ?_⟩
      · intro f hf
        exact ih1 f (by simpa [propLoop, hstep] using hf)
      · simpa [propLoop, hstep] using ih2
      · simp only [propLoop, hstep, Option.toList_none, List.nil_append,
          queuedUpdates_cons, hq]
        exact ih3
    · by_cases hcal : [t.calendar_id] ∈ env.master_cals
      · have hq : queuedFor env t =
            rowUpdates env.cfg t (env.master_cals.indexOf [t.calendar_id] + 2) := by
          simp [queuedFor, hurl, hcal]
        have hle := rowUpdates_len_le env.cfg t (env.master_cals.indexOf [t.calendar_id] + 2)
        by_cases hflush :
            40 ≤ acc.length +
              (rowUpdates env.cfg t (env.master_cals.indexOf [t.calendar_id] + 2)).length
        · have hstep : propStep env t acc =
              ([], some (acc ++ rowUpdates env.cfg t (env.master_cals.indexOf [t.calendar_id] + 2))) := by
            simp [propStep, hurl, hcal, hflush]
          obtain ⟨ih1, ih2, ih3⟩ := ih [] (by simp)
          refine ⟨?_, ?_, ?_⟩
          · intro f hf
            simp only [propLoop, hstep, Option.toList_some, List.cons_append,
              List.nil_append, List.mem_cons] at hf
            rcases hf with rfl | hf
            · rw [List.length_append]
              exact ⟨hflush, by omega⟩
            · exact ih1 f hf
          · simpa [propLoop, hstep] using ih2
          · simp only [propLoop, hstep, Option.toList_some, List.cons_append,
              List.nil_append, List.flatten_cons, queuedUpdates_cons, hq]
            rw [List.append_assoc, ih3]
            simp
        · have hstep : propStep env t acc =
              (acc ++ rowUpdates env.cfg t (env.master_cals.indexOf [t.calendar_id] + 2), none) := by
            simp [propStep, hurl, hcal, hflush]
          have hacc' :
              (acc ++ rowUpdates env.cfg t (env.master_cals.indexOf [t.calendar_id] + 2)).length ≤ 39 := by
            rw [List.length_append]
            omega
          obtain ⟨ih1, ih2, ih3⟩ := ih _ hacc'
          refine ⟨?_, ?_, ?_⟩
          · intro f hf
            exact ih1 f (by simpa [propLoop, hstep] using hf)
          · simpa [propLoop, hstep] using ih2
          · simp only [propLoop, hstep, Option.toList_none, List.nil_append,
              queuedUpdates_cons, hq]
            rw [ih3, List.append_assoc]
      · have hstep : propStep env t acc = (acc, none) := by simp [propStep, hurl, hcal]
        have hq : queuedFor env t = [] := by simp [queuedFor, hurl, hcal]
        obtain ⟨ih1, ih2, ih3⟩ := ih acc hacc
        refine ⟨?_, ?_, ?_⟩
        · intro f hf
          exact ih1 f (by simpa [propLoop, hstep] using hf)
        · simpa [propLoop, hstep] using ih2
        · simp only [propLoop, hstep, Option.toList_none, List.nil_append,
            queuedUpdates_cons, hq]
          exact ih3

lemma propLoop_no_flush (env : PropEnv) :
    ∀ (rows : List TrackRow) (acc : List Update),
      acc.length + (queuedUpdates env rows).length ≤ 39 →
      (propLoop env rows acc).2 = [] := by
  intro rows
  induction rows with
  | nil => intro acc _; simp [propLoop]
  | cons t ts ih =>
    intro acc hacc
    rw [queuedUpdates_cons, List.length_append] at hacc
    by_cases hurl : [t.transcript_url] ∈ env.master_urls
    · have hstep : propStep env t acc = (acc, none) := by simp [propStep, hurl]
      simp only [propLoop, hstep, Option.toList_none, List.nil_append]
      exact ih acc (by omega)
    · by_cases hcal : [t.calendar_id] ∈ env.master_cals
      · have hq : (queuedFor env t).length =
            (rowUpdates env.cfg t (env.master_cals.indexOf [t.calendar_id] + 2)).length := by
          simp [queuedFor, hurl, hcal]
        have hflush :
            ¬ 40 ≤ acc.length +
              (rowUpdates env.cfg t (env.master_cals.indexOf [t.calendar_id] + 2)).length := by
          omega
        have hstep : propStep env t acc =
            (acc ++ rowUpdates env.cfg t (env.master_cals.indexOf [t.calendar_id] + 2), none) := by
          simp [propStep, hurl, hcal, hflush]
        simp only [propLoop, hstep, Option.toList_none, List.nil_append]
        apply ih
        rw [List.length_append]
        omega
      · have hstep : propStep env t acc = (acc, none) := by simp [propStep, hurl, hcal]
        simp only [propLoop, hstep, Option.toList_none, List.nil_append]
        exact ih acc (by omega)

/-- C3: a tracking row whose archive url already appears anywhere in the
master archive-url column is skipped without queueing or writing anything;
a row without a calendar-id match is likewise skipped; otherwise the row
queues exactly its updates at the master row of the first calendar-id match
(column-scan order), and every queued update targets only that row. -/
theorem claim_C3 (env : PropEnv) (t : TrackRow) (acc : List Update) :
    ([t.transcript_url] ∈ env.master_urls → propStep env t acc = (acc, none)) ∧
    ([t.transcript_url] ∉ env.master_urls → [t.calendar_id] ∉ env.master_cals →
      propStep env t acc = (acc, none)) ∧
    ([t.transcript_url] ∉ env.master_urls → [t.calendar_id] ∈ env.master_cals →
      (propStep env t acc).1 ++ ((propStep env t acc).2.getD []) =
        acc ++ rowUpdates env.cfg t (env.master_cals.indexOf [t.calendar_id] + 2) ∧
      env.master_cals[env.master_cals.indexOf [t.calendar_id]]? = some [t.calendar_id] ∧
      (∀ j, j < env.master_cals.indexOf [t.calendar_id] →
        env.master_cals[j]? ≠ some [t.calendar_id]) ∧
      (∀ u ∈ rowUpdates env.cfg t (env.master_cals.indexOf [t.calendar_id] + 2),
        u.startRow = env.master_cals.indexOf [t.calendar_id] + 2 ∧
        (u.endRow = none ∨
          u.endRow = some (env.master_cals.indexOf [t.calendar_id] + 2)))) := by
  refine ⟨?_, ?_, ?_⟩
  · intro hurl
    simp [propStep, hurl]
  · intro hurl hcal
    simp [propStep, hurl, hcal]
  · intro hurl hcal
    obtain ⟨hfirst, hbefore⟩ := indexOf_first [t.calendar_id] env.master_cals hcal
    refine ⟨?_, hfirst, hbefore, rowUpdates_target_row _ _ _⟩
    by_cases hflush :
        40 ≤ acc.length +
          (rowUpdates env.cfg t (env.master_cals.indexOf [t.calendar_id] + 2)).length
    · simp [propStep, hurl, hcal, hflush]
    · simp [propStep, hurl, hcal, hflush]

theorem claim_C3_witness :
    (propStep ⟨⟨["Owner sheet to be updated", "Meeting Done"],
                ["Owner sheet to be updated"]⟩, [["u9"]], [["c0"], ["c1"]]⟩
        ⟨"c1", "E1", "t1", "u1", "f1", "12.00", "Conducted"⟩ []).1 ++
      ((propStep ⟨⟨["Owner sheet to be updated", "Meeting Done"],
                ["Owner sheet to be updated"]⟩, [["u9"]], [["c0"], ["c1"]]⟩
        ⟨"c1", "E1", "t1", "u1", "f1", "12.00", "Conducted"⟩ []).2.getD []) =
      [] ++ rowUpdates ⟨["Owner sheet to be updated", "Meeting Done"],
                ["Owner sheet to be updated"]⟩
        ⟨"c1", "E1", "t1", "u1", "f1", "12.00", "Conducted"⟩ 3 ∧
    propStep ⟨⟨["Owner sheet to be updated", "Meeting Done"],
                ["Owner sheet to be updated"]⟩, [["u9"]], [["c0"], ["c1"]]⟩
        ⟨"c0", "E0", "t0", "u9", "f0", "11.00", ""⟩ [] = ([], none) := by
  constructor
  · have h := (claim_C3 ⟨⟨["Owner sheet to be updated", "Meeting Done"],
                ["Owner sheet to be updated"]⟩, [["u9"]], [["c0"], ["c1"]]⟩
        ⟨"c1", "E1", "t1", "u1", "f1", "12.00", "Conducted"⟩ []).2.2
        (by decide) (by decide)
    have hidx : List.indexOf [("c1" : String)] [[("c0" : String)], ["c1"]] = 1 := by decide
    simpa [hidx] using h.1
  · exact (claim_C3 _ _ _).1 (by decide)

/-- C7 (amended): the flush check runs only after each matched record queues
its 4-5 updates, so no mid-loop flush happens while fewer than 40 updates are
ever accumulated, every mid-loop bulk write carries between 40 and 44
accumulated updates and empties the accumulator, and the stage's bulk writes
(including the final end-of-stage flush) carry exactly the queued updates in
order, none lost and none duplicated. -/
theorem claim_C7 (env : PropEnv) (rows : List TrackRow) :
    (∀ f ∈ midFlushes env rows, 40 ≤ f.length ∧ f.length ≤ 44) ∧
    ((queuedUpdates env rows).length ≤ 39 → midFlushes env rows = []) ∧
    (∀ t acc accNew fl, propStep env t acc = (accNew, some fl) → accNew = []) ∧
    (propagation env rows).flatten = queuedUpdates env rows := by
  obtain ⟨h1, _, h3⟩ := propLoop_spec env rows [] (by simp)
  refine ⟨h1, ?_, ?_, ?_⟩
  · intro hle
    exact propLoop_no_flush env rows [] (by simpa using hle)
  · intro t acc accNew fl hstep
    by_cases hurl : [t.transcript_url] ∈ env.master_urls
    · simp [propStep, hurl] at hstep
    · by_cases hcal : [t.calendar_id] ∈ env.master_cals
      · by_cases hflush :
            40 ≤ acc.length +
              (rowUpdates env.cfg t (env.master_cals.indexOf [t.calendar_id] + 2)).length
        · simp only [propStep, if_neg hurl, if_pos hcal] at hstep
          rw [if_pos (by rw [List.length_append]; exact hflush)] at hstep
          exact (Prod.mk.injEq _ _ _ _ ▸ hstep).1.symm
        · simp only [propStep, if_neg hurl, if_pos hcal] at hstep
          rw [if_neg (by rw [List.length_append]; exact hflush)] at hstep
          simp at hstep
      · simp [propStep, hurl, hcal] at hstep
  · have hsplit : propagation env rows =
        (propLoop env rows []).2 ++
          (if (propLoop env rows []).1.isEmpty then [] else [(propLoop env rows []).1]) := rfl
    rw [hsplit, List.flatten_append]
    by_cases hemp : (propLoop env rows []).1.isEmpty
    · rw [if_pos hemp]
      rw [List.isEmpty_iff] at hemp
      rw [hemp] at h3
      simpa using h3
    · rw [if_neg hemp]
      simpa using h3

/-- Master/audit headers used by the C7 example runs. -/
def cfgX : PropConfig :=
  ⟨["Owner", "Owner sheet to be updated", "Meeting Done"], ["Owner", "Owner sheet to be updated"]⟩

def envX : PropEnv :=
  ⟨cfgX, [],
   [["c0"], ["c1"], ["c2"], ["c3"], ["c4"], ["c5"], ["c6"], ["c7"], ["c8"], ["c9"]]⟩

/-- Ten matched tracking rows: six queueing 4 updates, then three queueing 5
(conducted), then one queueing 4 — counts 4, 8, ..., 24, 29, 34, 39, 43. -/
def rowsX : List TrackRow :=
  [⟨"c0", "e0", "t0", "u0", "f0", "12.00", ""⟩,
   ⟨"c1", "e1", "t1", "u1", "f1", "12.00", ""⟩,
   ⟨"c2", "e2", "t2", "u2", "f2", "12.00", ""⟩,
   ⟨"c3", "e3", "t3", "u3", "f3", "12.00", ""⟩,
   ⟨"c4", "e4", "t4", "u4", "f4", "12.00", ""⟩,
   ⟨"c5", "e5", "t5", "u5", "f5", "12.00", ""⟩,
   ⟨"c6", "e6", "t6", "u6", "f6", "12.00", "Conducted"⟩,
   ⟨"c7", "e7", "t7", "u7", "f7", "12.00", "Conducted"⟩,
   ⟨"c8", "e8", "t8", "u8", "f8", "12.00", "Conducted"⟩,
   ⟨"c9", "e9", "t9", "u9", "f9", "12.00", ""⟩]

theorem claim_C7_counterexample :
    midFlushes envX (rowsX.take 9) = [] ∧
    (queuedUpdates envX (rowsX.take 9)).length = 39 ∧
    (midFlushes envX rowsX).map List.length = [43] ∧
    ¬ (midFlushes envX rowsX).map List.length = [40] := by
  refine ⟨by decide, by decide, by decide, by decide⟩

def envW7 : PropEnv :=
  ⟨⟨["Owner sheet to be updated"], ["Owner sheet to be updated"]⟩, [], [["d0"]]⟩

def rowsW7 : List TrackRow := [⟨"d0", "w0", "wt0", "wu0", "wf0", "11.00", ""⟩]

theorem claim_C7_witness :
    midFlushes envW7 rowsW7 = [] ∧
    (propagation envW7 rowsW7).flatten = queuedUpdates envW7 rowsW7 :=
  ⟨(claim_C7 envW7 rowsW7).2.1 (by decide), (claim_C7 envW7 rowsW7).2.2.2⟩

/-! ## Sync-stage lemmas (C1, C6) -/

lemma syncRecord_tracked (env : SyncEnv) (t : Transcript)
    (h : [t.id] ∈ env.tracking_ids) : syncRecord env t = [] := by
  unfold syncRecord
  cases hs : t.sentences with
  | none => rfl
  | some ss =>
    by_cases he : ss.isEmpty <;> simp [he, h]

lemma syncRecord_emits (env : SyncEnv) (t : Transcript) (ss : List Sentence)
    (hs : t.sentences = some ss) (hne : ss.isEmpty = false)
    (hnt : [t.id] ∉ env.tracking_ids)
    (hsucc : env.docLookup t.id ≠ none ∨ env.createDoc t.id ≠ none) :
    ∃ row ∈ appendedRows (syncRecord env t), row[2]? = some t.id := by
  unfold syncRecord
  rw [hs]
  cases hdl : env.docLookup t.id with
  | some u =>
    refine ⟨[t.calendar_id, t.title, t.id, u, ffUrl t.id,
      format2f (meeting_duration ss), meeting_conducted ss], ?_, rfl⟩
    simp [hne, hnt, appendedRows, appendCalls]
  | none =>
    cases hcd : env.createDoc t.id with
    | none =>
      rcases hsucc with h | h
      · exact absurd hdl h
      · exact absurd hcd h
    | some d =>
      refine ⟨[t.calendar_id, t.title, t.id, docUrlOfId d, ffUrl t.id,
        format2f (meeting_duration ss), meeting_conducted ss], ?_, rfl⟩
      simp [hne, hnt, hcd, appendedRows, appendCalls]

lemma syncStage_cons (env : SyncEnv) (t : Transcript) (ts : List Transcript) :
    syncStage env (t :: ts) = syncRecord env t ++ syncStage env ts := by
  simp [syncStage]

lemma appendCalls_append (as bs : List SyncAction) :
    appendCalls (as ++ bs) = appendCalls as ++ appendCalls bs := by
  simp [appendCalls, List.filterMap_append]

lemma appendedRows_append (as bs : List SyncAction) :
    appendedRows (as ++ bs) = appendedRows as ++ appendedRows bs := by
  simp [appendedRows, appendCalls_append]

lemma mem_appendedRows_stage (env : SyncEnv) (t : Transcript) :
    ∀ (ts : List Transcript), t ∈ ts → ∀ row ∈ appendedRows (syncRecord env t),
      row ∈ appendedRows (syncStage env ts) := by
  intro ts
  induction ts with
  | nil => intro h; cases h
  | cons s ts ih =>
    intro ht row hrow
    rw [syncStage_cons, appendedRows_append]
    rcases List.mem_cons.mp ht with rfl | ht'
    · exact List.mem_append_left _ hrow
    · exact List.mem_append_right _ (ih ht' row hrow)

lemma appendedRows_stage_nil (env : SyncEnv) (ts : List Transcript)
    (h : ∀ t ∈ ts, appendedRows (syncRecord env t) = []) :
    appendedRows (syncStage env ts) = [] := by
  induction ts with
  | nil => simp [syncStage, appendedRows, appendCalls]
  | cons t ts ih =>
    rw [syncStage_cons, appendedRows_append, h t (List.mem_cons_self t ts),
      ih (fun x hx => h x (List.mem_cons_of_mem t hx))]
    rfl

/-- C1: a fetched transcript whose id is already a value of the tracking
sheet's transcript-id column is processed with no write at all (no document
creation, no row append); and if every record of a first run lands in the
second run's tracking-id column (all first-run lookups or creations
succeeding), the second run over the same fetched list appends zero rows. -/
theorem claim_C1 (env env₂ : SyncEnv) (ts : List Transcript)
    (hsucc : ∀ t ∈ ts, env.docLookup t.id ≠ none ∨ env.createDoc t.id ≠ none)
    (htrack : ∀ r ∈ env.tracking_ids, r ∈ env₂.tracking_ids)
    (happ : ∀ row ∈ appendedRows (syncStage env ts),
      [row[2]?.getD ""] ∈ env₂.tracking_ids) :
    (∀ t : Transcript, [t.id] ∈ env.tracking_ids → syncRecord env t = []) ∧
    appendedRows (syncStage env₂ ts) = [] := by
  refine ⟨fun t ht => syncRecord_tracked env t ht, ?_⟩
  refine appendedRows_stage_nil env₂ ts ?_
  intro t ht
  cases hs : t.sentences with
  | none => simp [syncRecord, hs, appendedRows, appendCalls]
  | some ss =>
    by_cases he : ss.isEmpty
    · simp [syncRecord, hs, he, appendedRows, appendCalls]
    · have hid : [t.id] ∈ env₂.tracking_ids := by
        by_cases h1 : [t.id] ∈ env.tracking_ids
        · exact htrack _ h1
        · obtain ⟨row, hrow, hget⟩ :=
            syncRecord_emits env t ss hs (by simpa using he) h1 (hsucc t ht)
          have hrow' := mem_appendedRows_stage env t ts ht row hrow
          have := happ row hrow'
          rwa [hget] at this
      rw [syncRecord_tracked env₂ t hid]
      rfl

def tsW1 : List Transcript :=
  [⟨"tA", "cA", "TA", some [⟨"S", "hello there", 0, 660⟩]⟩]

def envW1 : SyncEnv := ⟨[], fun _ => some "uA", fun _ => none⟩

def envW1b : SyncEnv := ⟨[["tA"]], fun _ => some "uA", fun _ => none⟩

theorem claim_C1_witness :
    appendedRows (syncStage envW1b tsW1) = [] := by
  refine (claim_C1 envW1 envW1b tsW1 ?_ ?_ ?_).2
  · intro t ht
    exact Or.inl (by simp [envW1])
  · intro r hr
    exact absurd hr (by simp [envW1])
  · decide

/-- C6 (amended): the sync stage appends each emitted tracking row through
its own per-record `values().append` call carrying exactly that one row; a
run emitting n rows issues n append calls, not one bulk call. -/
theorem claim_C6 (env : SyncEnv) (ts : List Transcript) :
    (appendCalls (syncStage env ts)).length = (appendedRows (syncStage env ts)).length ∧
    ∀ c ∈ appendCalls (syncStage env ts), c.length = 1 := by
  have hsingle : ∀ c ∈ appendCalls (syncStage env ts), c.length = 1 := by
    intro c hc
    induction ts with
    | nil => simp [syncStage, appendCalls] at hc
    | cons t ts ih =>
      rw [syncStage_cons, appendCalls_append] at hc
      rcases List.mem_append.mp hc with hc' | hc'
      · clear hc ih
        unfold syncRecord at hc'
        cases hs : t.sentences with
        | none => rw [hs] at hc'; simp [appendCalls] at hc'
        | some ss =>
          rw [hs] at hc'
          by_cases he : ss.isEmpty
          · simp [he, appendCalls] at hc'
          · by_cases hin : [t.id] ∈ env.tracking_ids
            · simp [he, hin, appendCalls] at hc'
            · cases hdl : env.docLookup t.id with
              | some u =>
                simp [he, hin, hdl, appendCalls] at hc'
                simp [hc']
              | none =>
                cases hcd : env.createDoc t.id with
                | none => simp [he, hin, hdl, hcd, appendCalls] at hc'
                | some d =>
                  simp [he, hin, hdl, hcd, appendCalls] at hc'
                  simp [hc']
      · exact ih hc'
  refine ⟨?_, hsingle⟩
  rw [appendedRows]
  generalize hgen : appendCalls (syncStage env ts) = calls at hsingle ⊢
  clear hgen
  induction calls with
  | nil => rfl
  | cons c cs ih =>
    rw [List.flatten_cons, List.length_cons, List.length_append,
      hsingle c (List.mem_cons_self c cs),
      ih (fun x hx => hsingle x (List.mem_cons_of_mem c hx))]
    omega

def tsC6 : List Transcript :=
  [⟨"t1", "c1", "T1", some [⟨"A", "hello", 0, 660⟩]⟩,
   ⟨"t2", "c2", "T2", some [⟨"B", "goodbye", 0, 660⟩]⟩]

def envC6 : SyncEnv := ⟨[], fun _ => some "uX", fun _ => none⟩

theorem claim_C6_counterexample :
    (appendedRows (syncStage envC6 tsC6)).length = 2 ∧
    (appendCalls (syncStage envC6 tsC6)).length = 2 ∧
    ¬ (appendCalls (syncStage envC6 tsC6)).length = 1 := by
  refine ⟨by decide, by decide, by decide⟩

def tsC6w : List Transcript :=
  [⟨"t3", "c3", "T3", some [⟨"C", "aloha", 0, 660⟩]⟩]

theorem claim_C6_witness :
    (appendCalls (syncStage envC6 tsC6w)).length =
      (appendedRows (syncStage envC6 tsC6w)).length ∧
    ((appendCalls (syncStage envC6 tsC6w)).headD []).length = 1 := by
  refine ⟨(claim_C6 envC6 tsC6w).1, ?_⟩
  obtain ⟨v, hv⟩ : ∃ v, appendCalls (syncStage envC6 tsC6w) = [v] := ⟨_, rfl⟩
  rw [hv]
  exact (claim_C6 envC6 tsC6w).2 v (by rw [hv]; exact List.mem_cons_self v [])

/-! ## Analysis-stage claims (C2, C10) -/

/-- C2: a failed structured-output call (no parsed result) leaves the record
with no spreadsheet write and no processed tag, and the processed tag is ever
set only in a run whose first action is the bulk analysis write and whose
write reported success. -/
theorem claim_C2 (cfg : PropConfig) (env : AnalysisEnv) (doc_id : String) (i : Nat) :
    (env.analysis = none → analysisRecordStep cfg env doc_id i = []) ∧
    (∀ d, AnalysisAction.setProcessedTag d ∈ analysisRecordStep cfg env doc_id i →
      env.writeSuccess = true ∧
      ∃ us, (analysisRecordStep cfg env doc_id i).head? = some (.batchWrite us)) := by
  by_cases hp : pyTruthyStr env.processed
  · constructor
    · intro _
      simp [analysisRecordStep, hp]
    · intro d hd
      simp [analysisRecordStep, hp] at hd
  · by_cases ht : env.transcript_text = ""
    · constructor
      · intro _
        simp [analysisRecordStep, hp, ht]
      · intro d hd
        simp [analysisRecordStep, hp, ht] at hd
    · cases ha : env.analysis with
      | none =>
        constructor
        · intro _
          simp [analysisRecordStep, hp, ht, ha]
        · intro d hd
          simp [analysisRecordStep, hp, ht, ha] at hd
      | some a =>
        constructor
        · intro h
          exact absurd h (by simp)
        · intro d hd
          cases hw : env.writeSuccess
          · rw [analysisRecordStep] at hd
            simp [hp, ht, ha, hw] at hd
          · exact ⟨rfl, analysisUpdates a i, by simp [analysisRecordStep, hp, ht, ha, hw]⟩

def cfgW2 : PropConfig := ⟨["Owner sheet to be updated"], ["Owner sheet to be updated"]⟩

def aW2 : List (String × PyValue) := [("Meeting_Type", PyValue.vStr "Intro")]

def envW2 : AnalysisEnv := ⟨none, "text", "", some aW2, true⟩

def envW2n : AnalysisEnv := ⟨none, "text", "", none, true⟩

theorem claim_C2_witness :
    analysisRecordStep cfgW2 envW2n "d" 5 = [] ∧
    (envW2.writeSuccess = true ∧
      ∃ us, (analysisRecordStep cfgW2 envW2 "d" 5).head? = some (.batchWrite us)) := by
  refine ⟨(claim_C2 cfgW2 envW2n "d" 5).1 rfl, ?_⟩
  refine (claim_C2 cfgW2 envW2 "d" 5).2 "d" ?_
  simp [analysisRecordStep, envW2, pyTruthyStr]

/-- The two field names whose values the analysis stage drops entirely
because the comma between their string literals is missing in
`new_column_keys`. -/
def badKeys : List String := ["Immediate_Next_Action", "Confidence_Score"]

/-- Two dumped analysis results with the same keys in the same order whose
values agree except possibly at the two `badKeys`. -/
def agreeExceptKeys : List (String × PyValue) → List (String × PyValue) → Prop
  | [], [] => True
  | kv :: a, kv' :: a' =>
      kv.1 = kv'.1 ∧ (kv.1 ∉ badKeys → kv.2 = kv'.2) ∧ agreeExceptKeys a a'
  | _, _ => False

lemma bucketStep_congr (acc : List String × List String) (kv kv' : String × PyValue)
    (hk : kv.1 = kv'.1) (hv : kv.1 ∉ badKeys → kv.2 = kv'.2) :
    bucketStep acc kv = bucketStep acc kv' := by
  by_cases hbad : kv.1 ∈ badKeys
  · have hb : kv.1 = "Immediate_Next_Action" ∨ kv.1 = "Confidence_Score" := by
      simpa [badKeys] using hbad
    have h1 : kv.1 ∉ audit_params := by rcases hb with h | h <;> rw [h] <;> decide
    have h2 : kv.1 ∉ business_params := by rcases hb with h | h <;> rw [h] <;> decide
    have h3 : kv.1 ∉ new_column_keys := by rcases hb with h | h <;> rw [h] <;> decide
    simp [bucketStep, ← hk, h1, h2, h3]
  · have hveq := hv hbad
    have heq : kv = kv' := Prod.ext hk hveq
    rw [heq]

lemma foldl_bucketStep_congr :
    ∀ (a a' : List (String × PyValue)), agreeExceptKeys a a' →
      ∀ acc, a.foldl bucketStep acc = a'.foldl bucketStep acc := by
  intro a
  induction a with
  | nil =>
    intro a' hag acc
    cases a' with
    | nil => rfl
    | cons kv' a'' => exact hag.elim
  | cons kv a ih =>
    intro a' hag acc
    cases a' with
    | nil => exact hag.elim
    | cons kv' a'' =>
      have hag' : kv.1 = kv'.1 ∧ (kv.1 ∉ badKeys → kv.2 = kv'.2) ∧ agreeExceptKeys a a'' :=
        hag
      obtain ⟨hk, hv, hrest⟩ := hag'
      simp only [List.foldl_cons]
      rw [bucketStep_congr acc kv kv' hk hv]
      exact ih a'' hrest _

lemma splitBuckets_congr (a a' : List (String × PyValue)) (hag : agreeExceptKeys a a') :
    splitBuckets a = splitBuckets a' :=
  foldl_bucketStep_congr a a' hag ([], [])

lemma lookup_congr :
    ∀ (a a' : List (String × PyValue)), agreeExceptKeys a a' →
      ∀ k : String, k ∉ badKeys → a.lookup k = a'.lookup k := by
  intro a
  induction a with
  | nil =>
    intro a' hag k hk
    cases a' with
    | nil => rfl
    | cons kv' a'' => exact hag.elim
  | cons kv a ih =>
    intro a' hag k hk
    cases a' with
    | nil => exact hag.elim
    | cons kv' a'' =>
      have hag' : kv.1 = kv'.1 ∧ (kv.1 ∉ badKeys → kv.2 = kv'.2) ∧ agreeExceptKeys a a'' :=
        hag
      obtain ⟨hkk, hv, hrest⟩ := hag'
      obtain ⟨k1, v1⟩ := kv
      obtain ⟨k1', v1'⟩ := kv'
      simp only at hkk hv
      subst hkk
      cases hbe : k == k1 with
      | true =>
        have hk1 : k = k1 := eq_of_beq hbe
        simp only [List.lookup, hbe]
        have hval : v1 = v1' := hv (hk1 ▸ hk)
        rw [hval]
      | false =>
        simp only [List.lookup, hbe]
        exact ih a'' hrest k hk

lemma new_col_data_congr (a a' : List (String × PyValue)) (hag : agreeExceptKeys a a') :
    new_col_data a = new_col_data a' := by
  unfold new_col_data
  refine List.map_congr_left fun k hkmem => ?_
  have hall : ∀ x ∈ new_column_keys, x ∉ badKeys := by decide
  rw [lookup_congr a a' hag k (hall k hkmem)]

/-- C10: the values of `Immediate_Next_Action` and `Confidence_Score` reach
no spreadsheet range (changing them changes neither bucket nor the new-column
values; the keys belong to no written subset), the new-column write holds
exactly 18 values for the 19-column range `AN:BF`, and its 15th value is the
empty string produced by looking up the merged key
`Immediate_Next_ActionConfidence_Score`, which is not a key of the dumped
model. -/
theorem claim_C10 (a a' : List (String × PyValue))
    (hagree : agreeExceptKeys a a')
    (hmerged : a.lookup "Immediate_Next_ActionConfidence_Score" = none) :
    splitBuckets a = splitBuckets a' ∧
    new_col_data a = new_col_data a' ∧
    (new_col_data a).length = 18 ∧
    colWidth "AN" "BF" = 19 ∧
    new_column_keys[14]? = some ("Immediate_Next_Action" ++ "Confidence_Score") ∧
    (new_col_data a)[14]? = some "" ∧
    ("Immediate_Next_Action" ∉ audit_params ∧ "Immediate_Next_Action" ∉ business_params ∧
      "Immediate_Next_Action" ∉ new_column_keys) ∧
    ("Confidence_Score" ∉ audit_params ∧ "Confidence_Score" ∉ business_params ∧
      "Confidence_Score" ∉ new_column_keys) ∧
    ("Immediate_Next_Action" ∈ analysisKeys ∧ "Confidence_Score" ∈ analysisKeys ∧
      "Immediate_Next_ActionConfidence_Score" ∉ analysisKeys) := by
  refine ⟨splitBuckets_congr a a' hagree, new_col_data_congr a a' hagree, ?_,
    by decide, by decide, ?_, by decide, by decide, by decide⟩
  · simp [new_col_data, new_column_keys]
  · have h14 : (new_col_data a)[14]? =
        some (newColFormat
          ((a.lookup "Immediate_Next_ActionConfidence_Score").getD (.vStr ""))) := by
      rw [new_col_data, List.getElem?_map]
      rfl
    rw [h14, hmerged]
    rfl

def aW10 : List (String × PyValue) :=
  [("Immediate_Next_Action", PyValue.vStr "call them"),
   ("Confidence_Score", PyValue.vInt 9),
   ("Meeting_Type", PyValue.vStr "Intro")]

def aW10x : List (String × PyValue) :=
  [("Immediate_Next_Action", PyValue.vStr "email them"),
   ("Confidence_Score", PyValue.vInt 2),
   ("Meeting_Type", PyValue.vStr "Intro")]

theorem claim_C10_witness :
    splitBuckets aW10 = splitBuckets aW10x ∧ (new_col_data aW10)[14]? = some "" := by
  have hag : agreeExceptKeys aW10 aW10x := by
    refine ⟨rfl, fun h => absurd ?_ h, rfl, fun h => absurd ?_ h, rfl, fun _ => rfl, trivial⟩
    · decide
    · decide
  have h := claim_C10 aW10 aW10x hag (by decide)
  exact ⟨h.1, h.2.2.2.2.2.1⟩

end TranscriptBot
